import Mathlib

/-!
Verification of the GPIO register-access and pin-typestate layers of the
rppal repository (src/gpio/mem.rs and src/gpio/pin.rs), as a shallow
embedding in Lean.  Machine words are `Nat` values; the volatile 32-bit
register block is a function from register offset to stored word, together
with the hardware-side observable effects (latched pull selectors) that the
write-only registers drive.  Concurrency (the per-register spin locks and
the wall-clock delays in `set_pullupdown`) is not modelled: each operation
is embedded as the sequential read/write trace it performs while holding
its exclusions.
-/

namespace Rppal

/-- Number of 32-bit GPIO registers (mem.rs: GPIO_MEM_REGISTERS = 41). -/
def GPIO_MEM_REGISTERS : Nat := 41

/-- Register offsets in 32-bit words, from mem.rs. -/
def GPFSEL0 : Nat := 0

/-- GPSET0 = 0x1c / 4. -/
def GPSET0 : Nat := 7

/-- GPCLR0 = 0x28 / 4. -/
def GPCLR0 : Nat := 10

/-- GPLEV0 = 0x34 / 4. -/
def GPLEV0 : Nat := 13

/-- GPPUD = 0x94 / 4. -/
def GPPUD : Nat := 37

/-- GPPUDCLK0 = 0x98 / 4. -/
def GPPUDCLK0 : Nat := 38

/-- Bitwise complement within a 32-bit word: the embedding of Rust `!x` on
`u32`, valid for `x < 2^32`. -/
def u32not (x : Nat) : Nat := x ^^^ (2 ^ 32 - 1)

/-- Modelled from the spec: the `Mode` enumeration {Input, Output,
AlternateFunction0..5} is declared in the gpio module root, which is not
among the provided sources; its discriminants are the 3-bit BCM2835
function-select encodings that mem.rs transmutes to and from. -/
inductive Mode
  | Input
  | Output
  | Alt0
  | Alt1
  | Alt2
  | Alt3
  | Alt4
  | Alt5
  deriving DecidableEq, Repr

/-- Numeric discriminant of a mode (the value `mode as u32` in mem.rs). -/
def Mode.val : Mode → Nat
  | .Input => 0
  | .Output => 1
  | .Alt0 => 4
  | .Alt1 => 5
  | .Alt2 => 6
  | .Alt3 => 7
  | .Alt4 => 3
  | .Alt5 => 2

/-- The unchecked `transmute` of a 3-bit value into `Mode`, embedded as a
partial conversion: `none` models undefined behaviour (a discriminant with
no corresponding variant). -/
def Mode.ofNat? : Nat → Option Mode
  | 0 => some .Input
  | 1 => some .Output
  | 2 => some .Alt5
  | 3 => some .Alt4
  | 4 => some .Alt0
  | 5 => some .Alt1
  | 6 => some .Alt2
  | 7 => some .Alt3
  | _ => none

/-- Modelled from the spec: the `Level` enumeration {Low, High}, declared in
the gpio module root (not among the provided sources), with the 1-bit
encoding mem.rs transmutes from. -/
inductive Level
  | Low
  | High
  deriving DecidableEq, Repr

/-- Numeric discriminant of a level. -/
def Level.val : Level → Nat
  | .Low => 0
  | .High => 1

/-- The unchecked `transmute` of a 1-bit value into `Level`, embedded as a
partial conversion. -/
def Level.ofNat? : Nat → Option Level
  | 0 => some .Low
  | 1 => some .High
  | _ => none

/-- Modelled from the spec: the `PullUpDown` enumeration {Off, PullDown,
PullUp}, declared in the gpio module root (not among the provided sources),
with the 2-bit selector encoding written to GPPUD (`pud as u32` in mem.rs). -/
inductive PullUpDown
  | Off
  | PullDown
  | PullUp
  deriving DecidableEq, Repr

/-- Numeric selector of a pull state. -/
def PullUpDown.val : PullUpDown → Nat
  | .Off => 0
  | .PullDown => 1
  | .PullUp => 2

/-- Modelled from the spec: the `Trigger` enumeration {Disabled, RisingEdge,
FallingEdge, Both}, declared outside the provided sources. -/
inductive Trigger
  | Disabled
  | RisingEdge
  | FallingEdge
  | Both
  deriving DecidableEq, Repr

/-- State of the memory-mapped GPIO block held by `GpioMem`, together with
the hardware-side pull latches its write-only registers drive.  `regs i` is
the word observable by a volatile read at offset `i`; `pudLatch p` is the
2-bit pull selector currently latched for pin `p`. -/
structure GpioMemState where
  regs : Nat → Nat
  pudLatch : Nat → Nat

/-- Volatile read at a register offset (mem.rs `read`). -/
def hwRead (s : GpioMemState) (offset : Nat) : Nat := s.regs offset

/-- Volatile write at a register offset (mem.rs `write`), together with the
hardware response.  Modelled from the spec for the write-only registers:
the set registers (GPSET0..1) drive high, and the clear registers
(GPCLR0..1) drive low, every pin whose bit is set in the written word, which
is observable in the corresponding level register (GPLEV0..1); a write to a
pull clock register (GPPUDCLK0..1) latches the current GPPUD selector into
every pin whose bit is set.  All other offsets behave as plain words. -/
def hwWrite (s : GpioMemState) (offset value : Nat) : GpioMemState :=
  if GPSET0 ≤ offset ∧ offset < GPSET0 + 2 then
    let lev := GPLEV0 + (offset - GPSET0)
    { s with regs := fun i => if i = lev then s.regs lev ||| value else s.regs i }
  else if GPCLR0 ≤ offset ∧ offset < GPCLR0 + 2 then
    let lev := GPLEV0 + (offset - GPCLR0)
    { s with regs := fun i => if i = lev then s.regs lev &&& u32not value else s.regs i }
  else if GPPUDCLK0 ≤ offset ∧ offset < GPPUDCLK0 + 2 then
    { regs := fun i => if i = offset then value else s.regs i,
      pudLatch := fun p =>
        if p / 32 = offset - GPPUDCLK0 ∧ Nat.testBit value (p % 32) = true then
          hwRead s GPPUD &&& 3
        else s.pudLatch p }
  else
    { s with regs := fun i => if i = offset then value else s.regs i }

/-- mem.rs `set_high`: single write of `1 << (pin % 32)` into the set
register at `GPSET0 + pin / 32`. -/
def set_high (s : GpioMemState) (pin : Nat) : GpioMemState :=
  hwWrite s (GPSET0 + pin / 32) (1 <<< (pin % 32))

/-- mem.rs `set_low`: single write of `1 << (pin % 32)` into the clear
register at `GPCLR0 + pin / 32`. -/
def set_low (s : GpioMemState) (pin : Nat) : GpioMemState :=
  hwWrite s (GPCLR0 + pin / 32) (1 <<< (pin % 32))

/-- The 1-bit value mem.rs `level` extracts before its transmute. -/
def levelBits (s : GpioMemState) (pin : Nat) : Nat :=
  (hwRead s (GPLEV0 + pin / 32) >>> (pin % 32)) &&& 1

/-- mem.rs `level`, with the transmute embedded as the partial conversion. -/
def level? (s : GpioMemState) (pin : Nat) : Option Level :=
  Level.ofNat? (levelBits s pin)

/-- mem.rs `level` as a total function; the default branch is dead code by
the totality theorem for `level?`. -/
def levelRead (s : GpioMemState) (pin : Nat) : Level :=
  (level? s pin).getD .Low

/-- The 3-bit value mem.rs `mode` extracts before its transmute. -/
def modeBits (s : GpioMemState) (pin : Nat) : Nat :=
  (hwRead s (GPFSEL0 + pin / 10) >>> (pin % 10 * 3)) &&& 7

/-- mem.rs `mode`, with the transmute embedded as the partial conversion. -/
def mode? (s : GpioMemState) (pin : Nat) : Option Mode :=
  Mode.ofNat? (modeBits s pin)

/-- mem.rs `mode` as a total function; the default branch is dead code by
the totality theorem for `mode?`. -/
def modeRead (s : GpioMemState) (pin : Nat) : Mode :=
  (mode? s pin).getD .Input

/-- mem.rs `set_mode`: under the per-register exclusion, read the
function-select register at `GPFSEL0 + pin / 10` and write it back with the
3-bit field at `(pin % 10) * 3` replaced by the mode discriminant. -/
def set_mode (s : GpioMemState) (pin : Nat) (m : Mode) : GpioMemState :=
  let offset := GPFSEL0 + pin / 10
  let shift := pin % 10 * 3
  let reg_value := hwRead s offset
  hwWrite s offset ((reg_value &&& u32not (7 <<< shift)) ||| (m.val <<< shift))

/-- mem.rs `set_pullupdown`: under exclusion on GPPUD and the clock
register at `GPPUDCLK0 + pin / 32`, write the 2-bit selector into GPPUD,
pulse the bit of the pin in the clock register (latching the selector),
then clear the selector bits of GPPUD and zero the clock register.  The two
5 microsecond delays are not modelled. -/
def set_pullupdown (s : GpioMemState) (pin : Nat) (pud : PullUpDown) : GpioMemState :=
  let offset := GPPUDCLK0 + pin / 32
  let shift := pin % 32
  let reg_value := hwRead s GPPUD
  let s1 := hwWrite s GPPUD ((reg_value &&& u32not 0b11) ||| (pud.val &&& 0b11))
  let s2 := hwWrite s1 offset (1 <<< shift)
  let s3 := hwWrite s2 GPPUD (reg_value &&& u32not 0b11)
  hwWrite s3 offset 0

/-- The all-zero register block: the state of the model before any
operation runs. -/
def initialState : GpioMemState :=
  { regs := fun _ => 0, pudLatch := fun _ => 0 }

/-- States reachable from the initial block through the register
operations of mem.rs on valid pin numbers. -/
inductive Reachable : GpioMemState → Prop
  | init : Reachable initialState
  | stepSetHigh {s p} : Reachable s → p ≤ 53 → Reachable (set_high s p)
  | stepSetLow {s p} : Reachable s → p ≤ 53 → Reachable (set_low s p)
  | stepSetMode {s p m} : Reachable s → p ≤ 53 → Reachable (set_mode s p m)
  | stepSetPud {s p pud} : Reachable s → p ≤ 53 → Reachable (set_pullupdown s p pud)

/-- Modelled from the spec: the kind of an OS-level I/O error, reduced to
the one distinction mem.rs `open` inspects (`io::ErrorKind::PermissionDenied`
against every other kind). -/
inductive IoKind
  | permissionDenied
  | other
  deriving DecidableEq, Repr

/-- Modelled from the spec: the error type of the gpio module (declared in
the module root, not among the provided sources), restricted to the kinds
named in the spec: Io wrapping an OS error, PermissionDenied, UnknownModel,
PinInUse, PinNotConfigured. -/
inductive Error
  | Io (kind : IoKind)
  | PermissionDenied
  | UnknownModel
  | PinInUse
  | PinNotConfigured
  deriving DecidableEq, Repr

/-- mem.rs `GpioMem::open`, with the two mapping attempts abstracted as
results: `fast` is the outcome of `map_devgpiomem`, `fallback` the outcome
of `map_devmem` (evaluated only when the fast path fails).  The match arms
mirror the source: a fallback failure of `Error::Io` whose kind is
permission-denied becomes `Error::PermissionDenied`; a fallback
`Error::UnknownModel` is returned as such; any other fallback failure is
replaced by the original fast-path error. -/
def openMem {α : Type} (fast : Except Error α) (fallback : Unit → Except Error α) :
    Except Error α :=
  match fast with
  | .ok p => .ok p
  | .error gpiomem_err =>
    match fallback () with
    | .ok p => .ok p
    | .error (.Io kind) =>
      if kind = IoKind.permissionDenied then .error .PermissionDenied
      else .error gpiomem_err
    | .error .UnknownModel => .error .UnknownModel
    | .error _ => .error gpiomem_err

/-- pin.rs `Pin::write`: dispatch on the level to `set_low` or `set_high`. -/
def writeLevel (s : GpioMemState) (pin : Nat) : Level → GpioMemState
  | .Low => set_low s pin
  | .High => set_high s pin

/-- Modelled from the spec: a running asynchronous interrupt worker
(`AsyncInterrupt`, declared in gpio/interrupt.rs, not among the provided
sources), reduced to the pin and trigger it was created for. -/
structure AsyncInterrupt where
  pin : Nat
  trigger : Trigger
  deriving DecidableEq, Repr

/-- Modelled from the spec: `AsyncInterrupt::stop` signals the worker and
joins it before returning, so that no callback fires afterwards; the spec
describes no failure condition, so the embedded stop always succeeds. -/
def AsyncInterrupt.stop (_ : AsyncInterrupt) : Except Error Unit := .ok ()

/-- pin.rs `InputPin`: the configured-as-input handle, together with the
per-pin synchronous trigger record that the Interrupt Coordinator keeps for
it (modelled from the spec: the coordinator state machine per pin, declared
in gpio/interrupt.rs, not among the provided sources). -/
structure InputPin where
  pin : Nat
  prev_mode : Option Mode
  async_interrupt : Option AsyncInterrupt
  reset_on_drop : Bool
  pud_mode : PullUpDown
  sync_trigger : Option Trigger
  deriving DecidableEq, Repr

/-- pin.rs `InputPin::new`: read the current mode; if it is already Input,
record no previous mode, otherwise record it and write Input; then apply
the requested pull state. -/
def InputPin.new (s : GpioMemState) (pin : Nat) (pud_mode : PullUpDown) :
    InputPin × GpioMemState :=
  let prev_mode := modeRead s pin
  let step : Option Mode × GpioMemState :=
    if prev_mode = Mode.Input then (none, s)
    else (some prev_mode, set_mode s pin Mode.Input)
  let s2 := set_pullupdown step.2 pin pud_mode
  ({ pin := pin, prev_mode := step.1, async_interrupt := none,
     reset_on_drop := true, pud_mode := pud_mode, sync_trigger := none }, s2)

/-- pin.rs `OutputPin`: the configured-as-output handle. -/
structure OutputPin where
  pin : Nat
  prev_mode : Option Mode
  reset_on_drop : Bool
  pud_mode : PullUpDown
  deriving DecidableEq, Repr

/-- pin.rs `OutputPin::new`: read the current mode; if it is already
Output, record no previous mode, otherwise record it and write Output.
Pull state is not touched. -/
def OutputPin.new (s : GpioMemState) (pin : Nat) : OutputPin × GpioMemState :=
  let prev_mode := modeRead s pin
  let step : Option Mode × GpioMemState :=
    if prev_mode = Mode.Output then (none, s)
    else (some prev_mode, set_mode s pin Mode.Output)
  ({ pin := pin, prev_mode := step.1, reset_on_drop := true,
     pud_mode := PullUpDown.Off }, step.2)

/-- pin.rs `AltPin`: the configured-with-alternate-function handle. -/
structure AltPin where
  pin : Nat
  mode : Mode
  prev_mode : Option Mode
  reset_on_drop : Bool
  pud_mode : PullUpDown
  deriving DecidableEq, Repr

/-- pin.rs `AltPin::new`: read the current mode; if it already equals the
requested mode, record no previous mode, otherwise record it and write the
requested mode.  Pull state is not touched. -/
def AltPin.new (s : GpioMemState) (pin : Nat) (m : Mode) : AltPin × GpioMemState :=
  let prev_mode := modeRead s pin
  let step : Option Mode × GpioMemState :=
    if prev_mode = m then (none, s)
    else (some prev_mode, set_mode s pin m)
  ({ pin := pin, mode := m, prev_mode := step.1, reset_on_drop := true,
     pud_mode := PullUpDown.Off }, step.2)

/-- One observable action performed while a configured handle is dropped:
a mode write-back, a pull clear, or the ownership release performed by the
inner `Pin` destructor. -/
inductive DropEvent
  | setModeEv (pin : Nat) (m : Mode)
  | setPudEv (pin : Nat) (pud : PullUpDown)
  | releaseOwnership (pin : Nat)
  deriving DecidableEq, Repr

/-- Whether a drop event is the ownership release. -/
def DropEvent.isRelease : DropEvent → Bool
  | .releaseOwnership _ => true
  | _ => false

/-- pin.rs `impl_drop` followed by the field drop of the inner `Pin`: when
`reset_on_drop` is set, write back the recorded previous mode (if any) and
clear a non-Off pull state; in every case the inner `Pin` destructor then
stores `false` into the ownership flag of the pin.  The macro body is shared
by `InputPin`, `OutputPin` and `AltPin`, so it is embedded once over the
fields the three structures share. -/
def configuredDropEvents (reset_on_drop : Bool) (prev_mode : Option Mode)
    (pud_mode : PullUpDown) (pin : Nat) : List DropEvent :=
  (if reset_on_drop then
    (match prev_mode with
      | some m => [DropEvent.setModeEv pin m]
      | none => []) ++
    (if pud_mode ≠ PullUpDown.Off then [DropEvent.setPudEv pin PullUpDown.Off] else [])
  else []) ++ [DropEvent.releaseOwnership pin]

/-- The drop trace of an `InputPin` (pin.rs `impl_drop!(InputPin)` plus
`Pin::drop`). -/
def InputPin.dropEvents (h : InputPin) : List DropEvent :=
  configuredDropEvents h.reset_on_drop h.prev_mode h.pud_mode h.pin

/-- The drop trace of an `OutputPin` (pin.rs `impl_drop!(OutputPin)` plus
`Pin::drop`). -/
def OutputPin.dropEvents (h : OutputPin) : List DropEvent :=
  configuredDropEvents h.reset_on_drop h.prev_mode h.pud_mode h.pin

/-- The drop trace of an `AltPin` (pin.rs `impl_drop!(AltPin)` plus
`Pin::drop`). -/
def AltPin.dropEvents (h : AltPin) : List DropEvent :=
  configuredDropEvents h.reset_on_drop h.prev_mode h.pud_mode h.pin

/-- The register block together with the process-wide ownership pool
`pins_taken` of `GpioState`. -/
structure FullState where
  mem : GpioMemState
  pins_taken : Nat → Bool

/-- Interpretation of one drop event: mode write-back and pull clear act on
the register block through the mem.rs operations; the ownership release
stores `false` into the flag of the pin (pin.rs `Pin::drop`). -/
def applyDropEvent (st : FullState) : DropEvent → FullState
  | .setModeEv p m => { st with mem := set_mode st.mem p m }
  | .setPudEv p pud => { st with mem := set_pullupdown st.mem p pud }
  | .releaseOwnership p =>
    { st with pins_taken := fun q => if q = p then false else st.pins_taken q }

/-- Interpretation of a drop trace, left to right. -/
def applyDropEvents (st : FullState) (evs : List DropEvent) : FullState :=
  evs.foldl applyDropEvent st

/-- Modelled from the spec: the clearing half of the Interrupt Coordinator
`clear_interrupt` (gpio/interrupt.rs, not among the provided sources):
remove the synchronous trigger recorded for the pin; idempotent and
infallible. -/
def InputPin.clear_interrupt (p : InputPin) : Except Error Unit × InputPin :=
  (.ok (), { p with sync_trigger := none })

/-- pin.rs `InputPin::clear_async_interrupt`: `take` the worker handle (the
field becomes `none` in every case) and, when one was present, stop it. -/
def InputPin.clear_async_interrupt (p : InputPin) : Except Error Unit × InputPin :=
  match p.async_interrupt with
  | some interrupt =>
    match interrupt.stop with
    | .ok _ => (.ok (), { p with async_interrupt := none })
    | .error e => (.error e, { p with async_interrupt := none })
  | none => (.ok (), p)

/-- pin.rs `InputPin::set_async_interrupt`: clear the synchronous trigger,
then the asynchronous one, then attempt to create the new worker; the
creation outcome of `AsyncInterrupt::new` is abstracted as the `newWorker`
argument.  The early returns of the `?` operator are mirrored by the
matches. -/
def InputPin.set_async_interrupt (p : InputPin) (_trigger : Trigger)
    (newWorker : Except Error AsyncInterrupt) : Except Error Unit × InputPin :=
  match p.clear_interrupt with
  | (.error e, p1) => (.error e, p1)
  | (.ok _, p1) =>
    match p1.clear_async_interrupt with
    | (.error e, p2) => (.error e, p2)
    | (.ok _, p2) =>
      match newWorker with
      | .error e => (.error e, p2)
      | .ok w => (.ok (), { p2 with async_interrupt := some w })

/-! Helper lemmas about bit fields. -/

theorem testBit_seven (i : Nat) : Nat.testBit 7 i = decide (i < 3) := by
  have h7 : (7 : Nat) = 2 ^ 3 - 1 := by norm_num
  rw [h7, Nat.testBit_two_pow_sub_one]

theorem testBit_three (i : Nat) : Nat.testBit 3 i = decide (i < 2) := by
  have h3 : (3 : Nat) = 2 ^ 2 - 1 := by norm_num
  rw [h3, Nat.testBit_two_pow_sub_one]

theorem testBit_one_idx (i : Nat) : Nat.testBit 1 i = decide (i = 0) := by
  have h1 : (1 : Nat) = 2 ^ 0 := by norm_num
  rw [h1, Nat.testBit_two_pow]
  simp [eq_comm]

theorem testBit_u32not (x i : Nat) :
    (u32not x).testBit i = ((x.testBit i) ^^ decide (i < 32)) := by
  unfold u32not
  rw [Nat.testBit_xor, Nat.testBit_two_pow_sub_one]

theorem testBit_ge_three {v : Nat} (hv : v < 8) {i : Nat} (hi : 3 ≤ i) :
    v.testBit i = false :=
  Nat.testBit_lt_two_pow (lt_of_lt_of_le hv
    (le_trans (by norm_num : (8 : Nat) ≤ 2 ^ 3) (Nat.pow_le_pow_right (by norm_num) hi)))

theorem testBit_ge_two {v : Nat} (hv : v < 4) {i : Nat} (hi : 2 ≤ i) :
    v.testBit i = false :=
  Nat.testBit_lt_two_pow (lt_of_lt_of_le hv
    (le_trans (by norm_num : (4 : Nat) ≤ 2 ^ 2) (Nat.pow_le_pow_right (by norm_num) hi)))

/-- Reading back the 3-bit field just written by the read-modify-write of
`set_mode`. -/
theorem getBits3_set_self (r v sh : Nat) (h32 : sh + 3 ≤ 32) (hv : v < 8) :
    (((r &&& u32not (7 <<< sh)) ||| (v <<< sh)) >>> sh) &&& 7 = v := by
  apply Nat.eq_of_testBit_eq
  intro i
  simp only [Nat.testBit_and, Nat.testBit_shiftRight, Nat.testBit_or, Nat.testBit_shiftLeft,
    testBit_u32not, testBit_seven, Nat.add_sub_cancel_left, ge_iff_le]
  by_cases hi : i < 3
  · have h1 : sh + i < 32 := by omega
    simp [hi, h1]
  · have h2 : v.testBit i = false := testBit_ge_three hv (by omega)
    simp [hi, h2]

/-- The read-modify-write of `set_mode` leaves every 3-bit field disjoint
from the written one unchanged. -/
theorem getBits3_set_ne (r v sh sh' : Nat) (hd : sh' + 3 ≤ sh ∨ sh + 3 ≤ sh')
    (h32 : sh' + 3 ≤ 32) (hv : v < 8) :
    (((r &&& u32not (7 <<< sh)) ||| (v <<< sh)) >>> sh') &&& 7 = (r >>> sh') &&& 7 := by
  apply Nat.eq_of_testBit_eq
  intro i
  simp only [Nat.testBit_and, Nat.testBit_shiftRight, Nat.testBit_or, Nat.testBit_shiftLeft,
    testBit_u32not, testBit_seven, ge_iff_le]
  by_cases hi : i < 3
  · have h1 : sh' + i < 32 := by omega
    rcases hd with hd | hd
    · have hlt : ¬ (sh ≤ sh' + i) := by omega
      simp [hi, h1, hlt]
    · have hge : sh ≤ sh' + i := by omega
      have h3 : ¬ (sh' + i - sh < 3) := by omega
      have h4 : v.testBit (sh' + i - sh) = false := testBit_ge_three hv (by omega)
      simp [hi, h1, hge, h3, h4]
  · simp [hi]

/-- Clearing the 2-bit selector of GPPUD zeroes the whole word whenever the
word held only selector bits. -/
theorem and_u32not_three {g : Nat} (hg : g < 4) : g &&& u32not 3 = 0 := by
  apply Nat.eq_of_testBit_eq
  intro i
  simp only [Nat.testBit_and, testBit_u32not, testBit_three, Nat.zero_testBit]
  by_cases hi : i < 2
  · simp [hi, show i < 32 by omega]
  · have h2 : g.testBit i = false := testBit_ge_two hg (by omega)
    simp [h2]

/-- The 2-bit selector read back from GPPUD right after `set_pullupdown`
wrote it is the requested one, whatever the word held before. -/
theorem gppud_selector (g v : Nat) (hv : v < 4) :
    ((g &&& u32not 3) ||| (v &&& 3)) &&& 3 = v := by
  apply Nat.eq_of_testBit_eq
  intro i
  simp only [Nat.testBit_and, Nat.testBit_or, testBit_u32not, testBit_three]
  by_cases hi : i < 2
  · simp [hi, show i < 32 by omega]
  · have h2 : v.testBit i = false := testBit_ge_two hv (by omega)
    simp [hi, h2]

/-- The level bit of a pin right after its set register drove it high. -/
theorem or_shift_extract (old sh : Nat) : ((old ||| 1 <<< sh) >>> sh) &&& 1 = 1 := by
  apply Nat.eq_of_testBit_eq
  intro i
  simp only [Nat.testBit_and, Nat.testBit_shiftRight, Nat.testBit_or, Nat.testBit_shiftLeft,
    testBit_one_idx, ge_iff_le]
  by_cases hi : i = 0
  · simp [hi]
  · simp [hi]

/-- The level bit of a pin right after its clear register drove it low. -/
theorem and_not_shift_extract (old sh : Nat) (h : sh < 32) :
    ((old &&& u32not (1 <<< sh)) >>> sh) &&& 1 = 0 := by
  apply Nat.eq_of_testBit_eq
  intro i
  simp only [Nat.testBit_and, Nat.testBit_shiftRight, testBit_u32not, Nat.testBit_shiftLeft,
    testBit_one_idx, Nat.zero_testBit, ge_iff_le]
  by_cases hi : i = 0
  · simp [hi, h]
  · simp [hi]

/-- Discriminants of `Mode` are 3-bit values. -/
theorem Mode.val_lt_eight (m : Mode) : m.val < 8 := by cases m <;> decide

/-- The transmute of a mode discriminant recovers the mode. -/
theorem Mode.ofNat?_val (m : Mode) : Mode.ofNat? m.val = some m := by cases m <;> rfl

/-- Selectors of `PullUpDown` are 2-bit values. -/
theorem PullUpDown.val_lt_four (pud : PullUpDown) : pud.val < 4 := by cases pud <;> decide

/-- Masking a pull selector with `0b11` is the identity. -/
theorem PullUpDown.val_and_three (pud : PullUpDown) : pud.val &&& 3 = pud.val := by
  cases pud <;> decide

/-! Characterizations of `hwWrite` at the three offset classes used by the
operations of mem.rs. -/

theorem hwWrite_plain (s : GpioMemState) (off v : Nat)
    (h1 : ¬ (GPSET0 ≤ off ∧ off < GPSET0 + 2))
    (h2 : ¬ (GPCLR0 ≤ off ∧ off < GPCLR0 + 2))
    (h3 : ¬ (GPPUDCLK0 ≤ off ∧ off < GPPUDCLK0 + 2)) :
    hwWrite s off v = { s with regs := fun i => if i = off then v else s.regs i } := by
  unfold hwWrite
  rw [if_neg h1, if_neg h2, if_neg h3]

theorem hwWrite_set (s : GpioMemState) (k v : Nat) (hk : k < 2) :
    hwWrite s (GPSET0 + k) v =
      { s with regs := fun i =>
          if i = GPLEV0 + k then s.regs (GPLEV0 + k) ||| v else s.regs i } := by
  unfold hwWrite
  rw [if_pos (by simp only [GPSET0]; omega)]
  simp only [Nat.add_sub_cancel_left]

theorem hwWrite_clr (s : GpioMemState) (k v : Nat) (hk : k < 2) :
    hwWrite s (GPCLR0 + k) v =
      { s with regs := fun i =>
          if i = GPLEV0 + k then s.regs (GPLEV0 + k) &&& u32not v else s.regs i } := by
  unfold hwWrite
  rw [if_neg (by simp only [GPSET0, GPCLR0]; omega),
    if_pos (by simp only [GPCLR0]; omega)]
  simp only [Nat.add_sub_cancel_left]

theorem hwWrite_clk (s : GpioMemState) (k v : Nat) (hk : k < 2) :
    hwWrite s (GPPUDCLK0 + k) v =
      { regs := fun i => if i = GPPUDCLK0 + k then v else s.regs i,
        pudLatch := fun p =>
          if p / 32 = k ∧ Nat.testBit v (p % 32) = true then s.regs GPPUD &&& 3
          else s.pudLatch p } := by
  unfold hwWrite
  rw [if_neg (by simp only [GPSET0, GPPUDCLK0]; omega),
    if_neg (by simp only [GPCLR0, GPPUDCLK0]; omega),
    if_pos (by simp only [GPPUDCLK0]; omega)]
  simp only [Nat.add_sub_cancel_left, hwRead]

/-! Characterizations of the mem.rs pin operations as state updates. -/

theorem set_mode_eq (s : GpioMemState) (p : Nat) (m : Mode) (hp : p ≤ 53) :
    set_mode s p m =
      { s with regs := fun i =>
          if i = GPFSEL0 + p / 10 then
            (s.regs (GPFSEL0 + p / 10) &&& u32not (7 <<< (p % 10 * 3))) |||
              (m.val <<< (p % 10 * 3))
          else s.regs i } := by
  have h10 : p / 10 ≤ 5 := by omega
  unfold set_mode
  rw [hwWrite_plain _ _ _ (by simp only [GPSET0, GPFSEL0]; omega)
    (by simp only [GPCLR0, GPFSEL0]; omega)
    (by simp only [GPPUDCLK0, GPFSEL0]; omega)]
  simp only [hwRead]

theorem set_high_eq (s : GpioMemState) (p : Nat) (hp : p ≤ 53) :
    set_high s p =
      { s with regs := fun i =>
          if i = GPLEV0 + p / 32 then s.regs (GPLEV0 + p / 32) ||| (1 <<< (p % 32))
          else s.regs i } := by
  unfold set_high
  rw [hwWrite_set _ _ _ (by omega)]

theorem set_low_eq (s : GpioMemState) (p : Nat) (hp : p ≤ 53) :
    set_low s p =
      { s with regs := fun i =>
          if i = GPLEV0 + p / 32 then s.regs (GPLEV0 + p / 32) &&& u32not (1 <<< (p % 32))
          else s.regs i } := by
  unfold set_low
  rw [hwWrite_clr _ _ _ (by omega)]

theorem set_pullupdown_eq (s : GpioMemState) (p : Nat) (pud : PullUpDown) (hp : p ≤ 53) :
    set_pullupdown s p pud =
      { regs := fun i =>
          if i = GPPUDCLK0 + p / 32 then 0
          else if i = GPPUD then s.regs GPPUD &&& u32not 3
          else s.regs i,
        pudLatch := fun q => if q = p then pud.val else s.pudLatch q } := by
  have h32 : p / 32 < 2 := by omega
  have hoff : GPPUD ≠ GPPUDCLK0 + p / 32 := by simp only [GPPUD, GPPUDCLK0]; omega
  unfold set_pullupdown
  rw [hwWrite_clk _ _ _ h32]
  rw [hwWrite_plain _ _ _ (by decide) (by decide) (by decide)]
  rw [hwWrite_clk _ _ _ h32]
  rw [hwWrite_plain _ _ _ (by decide) (by decide) (by decide)]
  simp only [GpioMemState.mk.injEq, hwRead]
  constructor
  · funext i
    by_cases hclk : i = GPPUDCLK0 + p / 32
    · simp [hclk]
    · by_cases hpud : i = GPPUD
      · simp [hclk, hpud, hoff]
      · simp [hclk, hpud]
  · funext q
    have hbit : ∀ j : Nat, Nat.testBit (1 <<< (p % 32)) j = decide (j = p % 32) := by
      intro j
      rw [Nat.testBit_shiftLeft, testBit_one_idx]
      by_cases hj : j = p % 32
      · simp [hj]
      · by_cases hge : p % 32 ≤ j
        · have : ¬ (j - p % 32 = 0) := by omega
          simp [hge, this, hj]
        · simp [hge, hj]
    by_cases hq : q = p
    · have hsel : ((s.regs GPPUD &&& u32not 3) ||| (pud.val &&& 3)) &&& 3 = pud.val :=
        gppud_selector _ _ (PullUpDown.val_lt_four pud)
      simp [hq, hbit, hoff, hsel]
    · by_cases hd : q / 32 = p / 32
      · have hm : ¬ (q % 32 = p % 32) := by omega
        simp [hq, hd, hbit, hm]
      · simp [hq, hd]

/-! Frame lemmas for the pin operations. -/

/-- `set_pullupdown` does not touch the function-select registers. -/
theorem set_pullupdown_regs_fsel (s : GpioMemState) (p : Nat) (pud : PullUpDown)
    (i : Nat) (hp : p ≤ 53) (hi : i < 6) :
    (set_pullupdown s p pud).regs i = s.regs i := by
  rw [set_pullupdown_eq s p pud hp]
  dsimp only
  rw [if_neg (by simp only [GPPUDCLK0]; omega), if_neg (by simp only [GPPUD]; omega)]

/-- `set_pullupdown` changes the mode bits of no pin. -/
theorem set_pullupdown_modeBits (s : GpioMemState) (p : Nat) (pud : PullUpDown)
    (q : Nat) (hp : p ≤ 53) (hq : q ≤ 53) :
    modeBits (set_pullupdown s p pud) q = modeBits s q := by
  unfold modeBits hwRead
  rw [set_pullupdown_regs_fsel s p pud _ hp (by simp only [GPFSEL0]; omega)]

/-- `set_pullupdown` latches the requested selector for its pin. -/
theorem set_pullupdown_pudLatch_self (s : GpioMemState) (p : Nat) (pud : PullUpDown)
    (hp : p ≤ 53) :
    (set_pullupdown s p pud).pudLatch p = pud.val := by
  rw [set_pullupdown_eq s p pud hp]
  dsimp only
  rw [if_pos rfl]

/-- Reading back the mode bits of the written pin after `set_mode`. -/
theorem set_mode_modeBits_self (s : GpioMemState) (p : Nat) (m : Mode) (hp : p ≤ 53) :
    modeBits (set_mode s p m) p = m.val := by
  rw [set_mode_eq s p m hp]
  unfold modeBits hwRead
  dsimp only
  rw [if_pos rfl]
  exact getBits3_set_self _ _ _ (by omega) (Mode.val_lt_eight m)

/-- `set_mode` leaves the mode bits of every other pin unchanged. -/
theorem set_mode_modeBits_ne (s : GpioMemState) (p q : Nat) (m : Mode)
    (hp : p ≤ 53) (_hq : q ≤ 53) (hqp : q ≠ p) :
    modeBits (set_mode s p m) q = modeBits s q := by
  rw [set_mode_eq s p m hp]
  unfold modeBits hwRead
  dsimp only
  by_cases hreg : GPFSEL0 + q / 10 = GPFSEL0 + p / 10
  · have hdiv : q / 10 = p / 10 := by simp only [GPFSEL0] at hreg; omega
    have hmod : q % 10 ≠ p % 10 := by omega
    rw [if_pos hreg, hdiv]
    exact getBits3_set_ne _ _ _ _ (by omega) (by omega) (Mode.val_lt_eight m)
  · rw [if_neg hreg]

/-- `set_mode` reads back as the written mode through the transmute. -/
theorem set_mode_modeRead_self (s : GpioMemState) (p : Nat) (m : Mode) (hp : p ≤ 53) :
    modeRead (set_mode s p m) p = m := by
  unfold modeRead mode?
  rw [set_mode_modeBits_self s p m hp, Mode.ofNat?_val]
  rfl

/-- C1: for every pin p in 0..=53 and every mode m, `set_mode(p, m)`
performs a read-modify-write that changes only the 3-bit field at shift
`(p % 10) * 3` of the function-select register at index `p / 10` to m: the
field of p reads back as m, the 3-bit field of every other pin q (in
particular the other 9 pins sharing the same register) is unchanged, and no
register other than the one at index `p / 10` is written. -/
theorem set_mode_updates_only_target_field (s : GpioMemState) (p q : Nat) (m : Mode)
    (hp : p ≤ 53) (hq : q ≤ 53) :
    modeBits (set_mode s p m) p = m.val
    ∧ (q ≠ p → modeBits (set_mode s p m) q = modeBits s q)
    ∧ ∀ i, i ≠ GPFSEL0 + p / 10 → (set_mode s p m).regs i = s.regs i := by
  refine ⟨set_mode_modeBits_self s p m hp, fun hqp => set_mode_modeBits_ne s p q m hp hq hqp, ?_⟩
  intro i hi
  rw [set_mode_eq s p m hp]
  dsimp only
  rw [if_neg hi]

/-- Witness for C1 at pins 3 and 4 on the initial block. -/
theorem set_mode_updates_only_target_field_witness :
    modeBits (set_mode initialState 3 Mode.Alt2) 3 = Mode.Alt2.val
    ∧ (4 ≠ 3 → modeBits (set_mode initialState 3 Mode.Alt2) 4 = modeBits initialState 4)
    ∧ ∀ i, i ≠ GPFSEL0 + 3 / 10 → (set_mode initialState 3 Mode.Alt2).regs i = initialState.regs i :=
  set_mode_updates_only_target_field initialState 3 4 Mode.Alt2 (by decide) (by decide)

/-- C9: for every pin and every register content, the 1-bit value extracted
by `level` lies in {0, 1} and the 3-bit value extracted by `mode` lies in
0..=7, so the unchecked transmutes always produce a valid `Level` or `Mode`
and both operations are total. -/
theorem level_mode_transmutes_total (s : GpioMemState) (p : Nat) :
    levelBits s p ≤ 1 ∧ modeBits s p ≤ 7
    ∧ (level? s p).isSome = true ∧ (mode? s p).isSome = true := by
  have hl : levelBits s p ≤ 1 := Nat.and_le_right
  have hm : modeBits s p ≤ 7 := Nat.and_le_right
  refine ⟨hl, hm, ?_, ?_⟩
  · unfold level?
    interval_cases h : levelBits s p <;> rfl
  · unfold mode?
    interval_cases h : modeBits s p <;> rfl

/-- C7: on every pin 0..=53, writing High then reading returns High, and
writing Low then reading returns Low, through the set/clear and level
registers. -/
theorem write_then_read_roundtrip (s : GpioMemState) (p : Nat) (hp : p ≤ 53) :
    levelRead (writeLevel s p Level.High) p = Level.High
    ∧ levelRead (writeLevel s p Level.Low) p = Level.Low := by
  constructor
  · unfold writeLevel levelRead level? levelBits hwRead
    rw [set_high_eq s p hp]
    dsimp only
    rw [if_pos rfl, or_shift_extract]
    rfl
  · unfold writeLevel levelRead level? levelBits hwRead
    rw [set_low_eq s p hp]
    dsimp only
    rw [if_pos rfl, and_not_shift_extract _ _ (by omega)]
    rfl

/-- Witness for C7 at pin 17 on the initial block. -/
theorem write_then_read_roundtrip_witness :
    levelRead (writeLevel initialState 17 Level.High) 17 = Level.High
    ∧ levelRead (writeLevel initialState 17 Level.Low) 17 = Level.Low :=
  write_then_read_roundtrip initialState 17 (by decide)

/-- In every reachable state the GPPUD word holds only selector bits: the
operations of mem.rs never store anything above bit 1 there. -/
theorem reachable_gppud_lt {s : GpioMemState} (h : Reachable s) : s.regs GPPUD < 4 := by
  induction h with
  | init => decide
  | stepSetHigh h hp ih =>
    rw [set_high_eq _ _ hp]
    dsimp only
    rw [if_neg (by simp only [GPLEV0, GPPUD]; omega)]
    exact ih
  | stepSetLow h hp ih =>
    rw [set_low_eq _ _ hp]
    dsimp only
    rw [if_neg (by simp only [GPLEV0, GPPUD]; omega)]
    exact ih
  | stepSetMode h hp ih =>
    rw [set_mode_eq _ _ _ hp]
    dsimp only
    rw [if_neg (by simp only [GPFSEL0, GPPUD]; omega)]
    exact ih
  | stepSetPud h hp ih =>
    rw [set_pullupdown_eq _ _ _ hp]
    dsimp only
    rw [if_neg (by simp only [GPPUD, GPPUDCLK0]; omega), if_pos rfl, and_u32not_three ih]
    decide

/-- C2: after `set_pullupdown(p, pud)` completes from any reachable state,
the GPPUD control register holds zero and the clock register of the pin is
cleared; and two successive calls with PullUp then PullDown latch PullDown
for the pin (last write wins). -/
theorem set_pullupdown_protocol (s : GpioMemState) (p : Nat) (pud : PullUpDown)
    (hs : Reachable s) (hp : p ≤ 53) :
    (set_pullupdown s p pud).regs GPPUD = 0
    ∧ (set_pullupdown s p pud).regs (GPPUDCLK0 + p / 32) = 0
    ∧ (set_pullupdown (set_pullupdown s p PullUpDown.PullUp) p PullUpDown.PullDown).pudLatch p
        = PullUpDown.PullDown.val := by
  have hg := reachable_gppud_lt hs
  refine ⟨?_, ?_, ?_⟩
  · rw [set_pullupdown_eq s p pud hp]
    dsimp only
    rw [if_neg (by simp only [GPPUD, GPPUDCLK0]; omega), if_pos rfl]
    exact and_u32not_three hg
  · rw [set_pullupdown_eq s p pud hp]
    dsimp only
    rw [if_pos rfl]
  · exact set_pullupdown_pudLatch_self _ p _ hp

/-- Witness for C2 at pin 17 on the initial block. -/
theorem set_pullupdown_protocol_witness :
    (set_pullupdown initialState 17 PullUpDown.PullUp).regs GPPUD = 0
    ∧ (set_pullupdown initialState 17 PullUpDown.PullUp).regs (GPPUDCLK0 + 17 / 32) = 0
    ∧ (set_pullupdown (set_pullupdown initialState 17 PullUpDown.PullUp) 17
        PullUpDown.PullDown).pudLatch 17 = PullUpDown.PullDown.val :=
  set_pullupdown_protocol initialState 17 PullUpDown.PullUp Reachable.init (by decide)

/-- C4: each configured constructor first reads the current mode; if it
already equals the target mode it records no previous mode and writes no
mode (for the input constructor only the pull registers are touched, for
the others the state is untouched); otherwise it records the read mode as
the previous mode and writes the target mode. -/
theorem constructors_record_previous_mode (s : GpioMemState) (p : Nat)
    (pud : PullUpDown) (m : Mode) (hp : p ≤ 53) :
    ((InputPin.new s p pud).1.prev_mode
        = if modeRead s p = Mode.Input then none else some (modeRead s p))
    ∧ (modeRead s p = Mode.Input → ∀ i, i < 6 → (InputPin.new s p pud).2.regs i = s.regs i)
    ∧ (modeRead s p ≠ Mode.Input → modeRead (InputPin.new s p pud).2 p = Mode.Input)
    ∧ ((OutputPin.new s p).1.prev_mode
        = if modeRead s p = Mode.Output then none else some (modeRead s p))
    ∧ (modeRead s p = Mode.Output → (OutputPin.new s p).2 = s)
    ∧ (modeRead s p ≠ Mode.Output → modeRead (OutputPin.new s p).2 p = Mode.Output)
    ∧ ((AltPin.new s p m).1.prev_mode
        = if modeRead s p = m then none else some (modeRead s p))
    ∧ (modeRead s p = m → (AltPin.new s p m).2 = s)
    ∧ (modeRead s p ≠ m → modeRead (AltPin.new s p m).2 p = m) := by
  refine ⟨?_, ?_, ?_, ?_, ?_, ?_, ?_, ?_, ?_⟩
  · by_cases hc : modeRead s p = Mode.Input <;> simp [InputPin.new, hc]
  · intro hc i hi
    simp only [InputPin.new, hc, if_pos]
    exact set_pullupdown_regs_fsel s p pud i hp hi
  · intro hc
    have h2 : (InputPin.new s p pud).2 = set_pullupdown (set_mode s p Mode.Input) p pud := by
      simp [InputPin.new, hc]
    rw [h2]
    unfold modeRead mode?
    rw [set_pullupdown_modeBits _ _ _ _ hp hp, set_mode_modeBits_self _ _ _ hp,
      Mode.ofNat?_val]
    rfl
  · by_cases hc : modeRead s p = Mode.Output <;> simp [OutputPin.new, hc]
  · intro hc
    simp [OutputPin.new, hc]
  · intro hc
    have h2 : (OutputPin.new s p).2 = set_mode s p Mode.Output := by
      simp [OutputPin.new, hc]
    rw [h2]
    exact set_mode_modeRead_self s p Mode.Output hp
  · by_cases hc : modeRead s p = m <;> simp [AltPin.new, hc]
  · intro hc
    simp [AltPin.new, hc]
  · intro hc
    have h2 : (AltPin.new s p m).2 = set_mode s p m := by
      simp [AltPin.new, hc]
    rw [h2]
    exact set_mode_modeRead_self s p m hp

/-- Witness for C4 at pin 9 on the initial block (whose mode reads Input). -/
theorem constructors_record_previous_mode_witness :
    ((InputPin.new initialState 9 PullUpDown.PullUp).1.prev_mode
        = if modeRead initialState 9 = Mode.Input then none else some (modeRead initialState 9))
    ∧ (modeRead initialState 9 = Mode.Input →
        ∀ i, i < 6 → (InputPin.new initialState 9 PullUpDown.PullUp).2.regs i = initialState.regs i)
    ∧ (modeRead initialState 9 ≠ Mode.Input →
        modeRead (InputPin.new initialState 9 PullUpDown.PullUp).2 9 = Mode.Input)
    ∧ ((OutputPin.new initialState 9).1.prev_mode
        = if modeRead initialState 9 = Mode.Output then none else some (modeRead initialState 9))
    ∧ (modeRead initialState 9 = Mode.Output → (OutputPin.new initialState 9).2 = initialState)
    ∧ (modeRead initialState 9 ≠ Mode.Output →
        modeRead (OutputPin.new initialState 9).2 9 = Mode.Output)
    ∧ ((AltPin.new initialState 9 Mode.Alt3).1.prev_mode
        = if modeRead initialState 9 = Mode.Alt3 then none else some (modeRead initialState 9))
    ∧ (modeRead initialState 9 = Mode.Alt3 → (AltPin.new initialState 9 Mode.Alt3).2 = initialState)
    ∧ (modeRead initialState 9 ≠ Mode.Alt3 →
        modeRead (AltPin.new initialState 9 Mode.Alt3).2 9 = Mode.Alt3) :=
  constructors_record_previous_mode initialState 9 PullUpDown.PullUp Mode.Alt3 (by decide)

/-- `set_mode` does not touch the pull latches. -/
theorem set_mode_pudLatch (s : GpioMemState) (p : Nat) (m : Mode) (hp : p ≤ 53) :
    (set_mode s p m).pudLatch = s.pudLatch := by
  rw [set_mode_eq _ _ _ hp]

/-- C5: dropping a configured handle with restore-on-release enabled (the
default) restores the recorded previous mode (when one was recorded) and
drives a non-Off applied pull state back to Off; with restore-on-release
disabled, the drop performs no hardware access at all. -/
theorem drop_restore_behavior (st : FullState) (p : Nat) (m : Mode)
    (prev : Option Mode) (pud : PullUpDown) (hp : p ≤ 53) :
    modeRead (applyDropEvents st (configuredDropEvents true (some m) pud p)).mem p = m
    ∧ (pud ≠ PullUpDown.Off →
        (applyDropEvents st (configuredDropEvents true prev pud p)).mem.pudLatch p
          = PullUpDown.Off.val)
    ∧ (applyDropEvents st (configuredDropEvents false prev pud p)).mem = st.mem := by
  refine ⟨?_, ?_, ?_⟩
  · by_cases hpud : pud = PullUpDown.Off
    · subst hpud
      simp only [configuredDropEvents, applyDropEvents, applyDropEvent, ne_eq,
        not_true_eq_false, if_false, if_true, List.append_nil, List.nil_append,
        List.cons_append, List.foldl_cons, List.foldl_nil]
      exact set_mode_modeRead_self st.mem p m hp
    · simp only [configuredDropEvents, applyDropEvents, applyDropEvent, ne_eq, hpud,
        not_false_eq_true, if_true, List.append_nil, List.nil_append,
        List.cons_append, List.foldl_cons, List.foldl_nil]
      unfold modeRead mode?
      rw [set_pullupdown_modeBits _ _ _ _ hp hp, set_mode_modeBits_self _ _ _ hp,
        Mode.ofNat?_val]
      rfl
  · intro hpud
    cases prev with
    | none =>
      simp only [configuredDropEvents, applyDropEvents, applyDropEvent, ne_eq, hpud,
        not_false_eq_true, if_true, List.append_nil, List.nil_append,
        List.cons_append, List.foldl_cons, List.foldl_nil]
      exact set_pullupdown_pudLatch_self st.mem p PullUpDown.Off hp
    | some m0 =>
      simp only [configuredDropEvents, applyDropEvents, applyDropEvent, ne_eq, hpud,
        not_false_eq_true, if_true, List.append_nil, List.nil_append,
        List.cons_append, List.foldl_cons, List.foldl_nil]
      exact set_pullupdown_pudLatch_self _ p PullUpDown.Off hp
  · simp [configuredDropEvents, applyDropEvents, applyDropEvent]

/-- Witness for C5 at pin 11 with a recorded previous mode of Alt1 and an
applied pull-up. -/
theorem drop_restore_behavior_witness :
    modeRead (applyDropEvents { mem := initialState, pins_taken := fun _ => true }
        (configuredDropEvents true (some Mode.Alt1) PullUpDown.PullUp 11)).mem 11 = Mode.Alt1
    ∧ (PullUpDown.PullUp ≠ PullUpDown.Off →
        (applyDropEvents { mem := initialState, pins_taken := fun _ => true }
          (configuredDropEvents true (some Mode.Alt1) PullUpDown.PullUp 11)).mem.pudLatch 11
          = PullUpDown.Off.val)
    ∧ (applyDropEvents { mem := initialState, pins_taken := fun _ => true }
        (configuredDropEvents false (some Mode.Alt1) PullUpDown.PullUp 11)).mem
        = ({ mem := initialState, pins_taken := fun _ => true } : FullState).mem :=
  drop_restore_behavior { mem := initialState, pins_taken := fun _ => true } 11 Mode.Alt1
    (some Mode.Alt1) PullUpDown.PullUp (by decide)

/-- C6: the drop trace of a configured handle contains the ownership
release exactly once, the flag of the pin is false afterwards, the flag of
every other pin is untouched, and none of this depends on the
restore-on-release setting. -/
theorem drop_releases_ownership_once (st : FullState) (reset : Bool)
    (prev : Option Mode) (pud : PullUpDown) (p q : Nat) :
    (configuredDropEvents reset prev pud p).countP (fun e => e.isRelease) = 1
    ∧ (applyDropEvents st (configuredDropEvents reset prev pud p)).pins_taken p = false
    ∧ (q ≠ p → (applyDropEvents st (configuredDropEvents reset prev pud p)).pins_taken q
        = st.pins_taken q) := by
  refine ⟨?_, ?_, ?_⟩
  · cases reset <;> cases prev <;> by_cases hpud : pud = PullUpDown.Off <;>
      simp [configuredDropEvents, DropEvent.isRelease, hpud]
  · cases reset <;> cases prev <;> by_cases hpud : pud = PullUpDown.Off <;>
      simp [configuredDropEvents, applyDropEvents, applyDropEvent, hpud]
  · intro hq
    cases reset <;> cases prev <;> by_cases hpud : pud = PullUpDown.Off <;>
      simp [configuredDropEvents, applyDropEvents, applyDropEvent, hpud, hq]

/-- Witness for C6 at pin 5 with restore-on-release disabled. -/
theorem drop_releases_ownership_once_witness :
    (configuredDropEvents false (some Mode.Output) PullUpDown.PullDown 5).countP
        (fun e => e.isRelease) = 1
    ∧ (applyDropEvents { mem := initialState, pins_taken := fun _ => true }
        (configuredDropEvents false (some Mode.Output) PullUpDown.PullDown 5)).pins_taken 5
        = false
    ∧ (6 ≠ 5 → (applyDropEvents { mem := initialState, pins_taken := fun _ => true }
        (configuredDropEvents false (some Mode.Output) PullUpDown.PullDown 5)).pins_taken 6
        = ({ mem := initialState, pins_taken := fun _ => true } : FullState).pins_taken 6) :=
  drop_releases_ownership_once { mem := initialState, pins_taken := fun _ => true } false
    (some Mode.Output) PullUpDown.PullDown 5 6

/-- C3: when the fast device path fails, `open` succeeds whenever the
fallback succeeds; if the fallback also fails the returned error is
PermissionDenied for a permission-denied I/O failure of the fallback, else
UnknownModel for a model-identification failure of the fallback, else the
original fast-path error; and a fast-path success is returned as is. -/
theorem open_error_priority {α : Type} (v : α) (e1 e2 : Error)
    (fb : Unit → Except Error α) :
    openMem (Except.ok v) fb = Except.ok v
    ∧ openMem (Except.error e1) (fun _ => Except.ok v) = Except.ok v
    ∧ openMem (Except.error e1)
        (fun _ => (Except.error (Error.Io IoKind.permissionDenied) : Except Error α))
        = Except.error Error.PermissionDenied
    ∧ openMem (Except.error e1) (fun _ => (Except.error Error.UnknownModel : Except Error α))
        = Except.error Error.UnknownModel
    ∧ (∀ kind, kind ≠ IoKind.permissionDenied →
        openMem (Except.error e1) (fun _ => (Except.error (Error.Io kind) : Except Error α))
          = Except.error e1)
    ∧ (e2 ≠ Error.UnknownModel → (∀ kind, e2 ≠ Error.Io kind) →
        openMem (Except.error e1) (fun _ => (Except.error e2 : Except Error α))
          = Except.error e1) := by
  refine ⟨rfl, rfl, rfl, rfl, ?_, ?_⟩
  · intro kind hk
    simp [openMem, hk]
  · intro h1 h2
    cases e2 with
    | Io k => exact absurd rfl (h2 k)
    | UnknownModel => exact absurd rfl h1
    | PermissionDenied => rfl
    | PinInUse => rfl
    | PinNotConfigured => rfl

/-- Witness for C3 with a generic fast-path I/O error. -/
theorem open_error_priority_witness :
    openMem (Except.ok 0) (fun _ => (Except.ok 0 : Except Error Nat)) = Except.ok 0
    ∧ openMem (Except.error (Error.Io IoKind.other)) (fun _ => (Except.ok 0 : Except Error Nat))
        = Except.ok 0
    ∧ openMem (Except.error (Error.Io IoKind.other))
        (fun _ => (Except.error (Error.Io IoKind.permissionDenied) : Except Error Nat))
        = Except.error Error.PermissionDenied
    ∧ openMem (Except.error (Error.Io IoKind.other))
        (fun _ => (Except.error Error.UnknownModel : Except Error Nat))
        = Except.error Error.UnknownModel
    ∧ (∀ kind, kind ≠ IoKind.permissionDenied →
        openMem (Except.error (Error.Io IoKind.other))
          (fun _ => (Except.error (Error.Io kind) : Except Error Nat))
        = Except.error (Error.Io IoKind.other))
    ∧ (Error.PermissionDenied ≠ Error.UnknownModel →
        (∀ kind, Error.PermissionDenied ≠ Error.Io kind) →
        openMem (Except.error (Error.Io IoKind.other))
          (fun _ => (Except.error Error.PermissionDenied : Except Error Nat))
        = Except.error (Error.Io IoKind.other)) :=
  open_error_priority 0 (Error.Io IoKind.other) Error.PermissionDenied (fun _ => Except.ok 0)

/-- C8: `clear_async_interrupt` is idempotent (a second call right after a
first yields the same state and result), and calling it with no
asynchronous trigger configured is a no-op returning success. -/
theorem clear_async_interrupt_idempotent (p : InputPin) :
    InputPin.clear_async_interrupt (InputPin.clear_async_interrupt p).2
        = InputPin.clear_async_interrupt p
    ∧ (p.async_interrupt = none →
        InputPin.clear_async_interrupt p = (Except.ok (), p)) := by
  constructor
  · cases h : p.async_interrupt <;>
      simp [InputPin.clear_async_interrupt, AsyncInterrupt.stop, h]
  · intro h
    simp [InputPin.clear_async_interrupt, h]

/-- Witness for C8 on a handle with a live worker. -/
theorem clear_async_interrupt_idempotent_witness :
    InputPin.clear_async_interrupt (InputPin.clear_async_interrupt
        { pin := 17, prev_mode := none,
          async_interrupt := some { pin := 17, trigger := Trigger.Both },
          reset_on_drop := true, pud_mode := PullUpDown.Off, sync_trigger := none }).2
      = InputPin.clear_async_interrupt
        { pin := 17, prev_mode := none,
          async_interrupt := some { pin := 17, trigger := Trigger.Both },
          reset_on_drop := true, pud_mode := PullUpDown.Off, sync_trigger := none }
    ∧ (InputPin.async_interrupt
        { pin := 17, prev_mode := none,
          async_interrupt := some { pin := 17, trigger := Trigger.Both },
          reset_on_drop := true, pud_mode := PullUpDown.Off, sync_trigger := none } = none →
        InputPin.clear_async_interrupt
        { pin := 17, prev_mode := none,
          async_interrupt := some { pin := 17, trigger := Trigger.Both },
          reset_on_drop := true, pud_mode := PullUpDown.Off, sync_trigger := none }
        = (Except.ok (),
          { pin := 17, prev_mode := none,
            async_interrupt := some { pin := 17, trigger := Trigger.Both },
            reset_on_drop := true, pud_mode := PullUpDown.Off, sync_trigger := none })) :=
  clear_async_interrupt_idempotent
    { pin := 17, prev_mode := none,
      async_interrupt := some { pin := 17, trigger := Trigger.Both },
      reset_on_drop := true, pud_mode := PullUpDown.Off, sync_trigger := none }

/-- C10: `set_async_interrupt` removes the synchronous and asynchronous
triggers of the pin before attempting to create the new worker, so a
creation failure is returned with the prior triggers already cleared; a
creation success installs the new worker on the cleared state. -/
theorem set_async_interrupt_error_clears_triggers (p : InputPin) (t : Trigger)
    (e : Error) (w : AsyncInterrupt) :
    (InputPin.set_async_interrupt p t (Except.error e)).1 = Except.error e
    ∧ (InputPin.set_async_interrupt p t (Except.error e)).2.sync_trigger = none
    ∧ (InputPin.set_async_interrupt p t (Except.error e)).2.async_interrupt = none
    ∧ (InputPin.set_async_interrupt p t (Except.ok w)).2
        = { p with sync_trigger := none, async_interrupt := some w } := by
  cases h : p.async_interrupt <;>
    simp [InputPin.set_async_interrupt, InputPin.clear_interrupt,
      InputPin.clear_async_interrupt, AsyncInterrupt.stop, h]

end Rppal
